import Mathlib

/-!
Verification of the face-recognition event indexer against its specification.

The development shallowly embeds the Python sources:
  - services/face_database.py  (faces table, checkpoint ledger)
  - services/indexing_service.py (full and incremental indexing runs)
  - services/face_matcher.py   (encoding cache and vectorized matcher)
  - app.py                     (duplicate background runner, Task snapshots)

Modelling conventions:
  - SQLite tables are lists of row structures; INSERT appends, DELETE filters,
    UPDATE on the single events row mutates fields of `DBState`.
  - The remote asset store (Google Drive) is a pure input: the folder listing is
    a list of `DriveFile`, the changes feed a list of `ChangePage`, and the
    download/extract behaviour of each photo a function `String → Outcome`.
  - Real-valued embedding arithmetic is carried out in exact rationals.  The
    library call `face_recognition.face_distance` computes the Euclidean norm
    `sqrt (sum ((a-b)^2))`; since `sqrt` is strictly monotone on nonnegatives,
    the comparison `distance <= tolerance` performed by the matcher is embedded
    as `distSq <= tolerance * tolerance`, and the square of the distance is the
    sort key.  All selection, deduplication and ordering logic is unchanged.
  - Each indexing run additionally records a `trace` of its durable writes and
    the completion signal, in program order; temporal claims are read off the
    trace.  In-memory progress updates and log lines are not recorded.
  - Engine-level faults (HttpError handlers of the outermost try) and the
    expired-token re-bootstrap are outside the model; all claims concern the
    non-exceptional control flow.
-/

namespace FaceEvent

/-- Bounding box of a detected face (the `face_location` dict). -/
structure BBox where
  top : Int
  right : Int
  bottom : Int
  left : Int
deriving DecidableEq, Repr

/-- One face observation returned by the extractor:
a fixed-dimensional encoding vector plus its bounding box. -/
structure Face where
  encoding : List Rat
  location : BBox
deriving DecidableEq, Repr

/-- Behaviour of the external world for one photo during indexing:
the download fails permanently (after the bounded retries of
`download_image_from_drive`), the extractor raises `ImageProcessingError`,
or extraction succeeds with a list of faces. -/
inductive Outcome where
  | downloadFail
  | extractFail
  | ok (faces : List Face)
deriving DecidableEq, Repr

/-- A row of the `faces` table. -/
structure FaceRow where
  eventId : String
  photoId : String
  photoName : String
  encoding : List Rat
  location : BBox
deriving DecidableEq, Repr

/-- A row of the `indexing_checkpoints` table.  The table has an AUTOINCREMENT
surrogate key and NO uniqueness constraint on `(event_id, photo_id)`. -/
structure CheckpointRow where
  eventId : String
  photoId : String
  photoName : String
  facesFound : Nat
deriving DecidableEq, Repr

/-- Durable state: the `faces` and `indexing_checkpoints` tables plus the
columns of the one `events` row the indexer touches. -/
structure DBState where
  faces : List FaceRow
  checkpoints : List CheckpointRow
  indexingStatus : String
  indexedPhotos : Nat
  totalFaces : Nat
  drivePageToken : Option String
deriving DecidableEq, Repr

/-- `save_face_to_db`: INSERT INTO faces. -/
def save_face_to_db (db : DBState) (eventId photoId photoName : String) (f : Face) : DBState :=
  { db with faces := db.faces ++ [⟨eventId, photoId, photoName, f.encoding, f.location⟩] }

/-- `save_faces_batch`: one `save_face_to_db` per face, returning the count. -/
def save_faces_batch (db : DBState) (eventId photoId photoName : String)
    (faces : List Face) : DBState × Nat :=
  (faces.foldl (fun d f => save_face_to_db d eventId photoId photoName f) db, faces.length)

/-- The checkpoint rows of one event (`SELECT ... WHERE event_id = ?`). -/
def eventCheckpoints (db : DBState) (eventId : String) : List CheckpointRow :=
  db.checkpoints.filter (fun c => c.eventId == eventId)

/-- `save_checkpoint`: a plain INSERT INTO indexing_checkpoints. -/
def save_checkpoint (db : DBState) (eventId photoId photoName : String)
    (facesFound : Nat) : DBState :=
  { db with checkpoints := db.checkpoints ++ [⟨eventId, photoId, photoName, facesFound⟩] }

/-- `clear_checkpoints`: DELETE FROM indexing_checkpoints WHERE event_id = ?. -/
def clear_checkpoints (db : DBState) (eventId : String) : DBState :=
  { db with checkpoints := db.checkpoints.filter (fun c => !(c.eventId == eventId)) }

/-- `get_checkpoint_photo_ids`: photo ids having a checkpoint for the event. -/
def get_checkpoint_photo_ids (db : DBState) (eventId : String) : List String :=
  (eventCheckpoints db eventId).map (fun c => c.photoId)

/-- `get_indexed_photo_ids`: photo ids having at least one faces row. -/
def get_indexed_photo_ids (db : DBState) (eventId : String) : List String :=
  (db.faces.filter (fun r => r.eventId == eventId)).map (fun r => r.photoId)

/-- A remote file as seen through the Drive API. -/
structure DriveFile where
  id : String
  name : String
  mimeType : String
  parents : List String
  trashed : Bool
deriving DecidableEq, Repr

/-- The mime filter of the listing query and of the changes filter. -/
def acceptedImageMime (m : String) : Bool :=
  m == "image/jpeg" || m == "image/png" || m == "image/jpg"

/-- `drive_service.files().list`: the query keeps files of the folder with an
accepted image mime type that are not trashed; exactly one page of at most
`pageSize` results is consumed (the code never follows `nextPageToken`). -/
def drive_files_list (remote : List DriveFile) (folderId : String) (pageSize : Nat) :
    List DriveFile :=
  (remote.filter
    (fun f => f.parents.contains folderId && acceptedImageMime f.mimeType && !f.trashed)).take
    pageSize

/-- The id and name projection the listing requests (`fields="files(id, name)"`). -/
structure PhotoRef where
  id : String
  name : String
deriving DecidableEq, Repr

/-- Durable writes and task signals an indexing run performs, in program order. -/
inductive Action where
  | saveFace (photoId : String)
  | saveCheckpoint (photoId : String) (facesFound : Nat)
  | setCounters (indexedPhotos totalFaces : Nat)
  | saveToken (token : Option String)
  | setStatusOnly (status : String)
  | setStatusCounters (status : String) (indexedPhotos totalFaces : Nat)
  | clearCheckpoints
  | invalidateCache
  | taskComplete
deriving DecidableEq, Repr

/-- Accumulator of an indexing run: the database plus the local
`indexed_photos` and `total_faces` counters and the recorded trace. -/
structure RunAcc where
  db : DBState
  indexedPhotos : Nat
  totalFaces : Nat
  trace : List Action
deriving DecidableEq, Repr

/-- `index_single_photo` of services/indexing_service.py: download (an
`IndexingError` from a permanent download failure propagates to the caller,
modelled as `.error`), extract (an `ImageProcessingError` is caught and the
function returns 0), save the faces and return their count. -/
def index_single_photo (eventId photoId photoName : String) (oc : Outcome)
    (db : DBState) : Except Unit (DBState × Nat) :=
  match oc with
  | .downloadFail => .error ()
  | .extractFail => .ok (db, 0)
  | .ok faces =>
      if faces.isEmpty then .ok (db, 0)
      else .ok (save_faces_batch db eventId photoId photoName faces)

/-- Body of the per-photo loop of `run_full_indexing`: skip photos of the
checkpoint snapshot; call `index_single_photo` inside try/except (any
exception is logged and the loop continues with the next photo — no
checkpoint, no counter update); otherwise add the counters, save a checkpoint
and persist the counters.  The `processed` snapshot is taken once at run
start and is not extended during the run. -/
def processPhotoFull (fetch : String → Outcome) (eventId : String)
    (processed : List String) (acc : RunAcc) (p : PhotoRef) : RunAcc :=
  if processed.contains p.id then acc
  else
    match index_single_photo eventId p.id p.name (fetch p.id) acc.db with
    | .error _ => acc
    | .ok (db1, n) =>
        let indexed := acc.indexedPhotos + 1
        let total := acc.totalFaces + n
        let db2 := save_checkpoint db1 eventId p.id p.name n
        let db3 := { db2 with indexedPhotos := indexed, totalFaces := total }
        { db := db3
          indexedPhotos := indexed
          totalFaces := total
          trace := acc.trace ++ List.replicate n (Action.saveFace p.id) ++
            [Action.saveCheckpoint p.id n, Action.setCounters indexed total] }

/-- `run_full_indexing` of services/indexing_service.py, non-exceptional path:
read the checkpoint snapshot (resume), list one page of at most 100 photos,
process them batch by batch (the `batch_size` split only groups log lines and
does not change the processing order, so the loop is modelled directly over
the listed photos), then mark the event Completed, clear its checkpoints and
complete the task.  No cache invalidation happens anywhere in this function. -/
def run_full_indexing (fetch : String → Outcome) (eventId folderId : String)
    (remote : List DriveFile) (db0 : DBState) : RunAcc :=
  let ckpts := eventCheckpoints db0 eventId
  let processed := ckpts.map (fun c => c.photoId)
  let totalFaces0 := (ckpts.map (fun c => c.facesFound)).sum
  let indexed0 := ckpts.length
  let photos := (drive_files_list remote folderId 100).map (fun f => PhotoRef.mk f.id f.name)
  let st := photos.foldl (processPhotoFull fetch eventId processed)
    ⟨db0, indexed0, totalFaces0, []⟩
  let db1 := { st.db with
    indexingStatus := "Completed"
    indexedPhotos := st.indexedPhotos
    totalFaces := st.totalFaces }
  let db2 := clear_checkpoints db1 eventId
  { st with
    db := db2
    trace := st.trace ++
      [Action.setStatusCounters "Completed" st.indexedPhotos st.totalFaces,
       Action.clearCheckpoints, Action.taskComplete] }

/-- A change entry of the Drive changes feed (`change.get('file')` may be
absent, hence the Option). -/
structure ChangePage where
  changes : List (Option DriveFile)
  nextPageToken : Option String
  newStartPageToken : Option String
deriving DecidableEq, Repr

/-- The while-True walk of the changes feed of `run_incremental_indexing`:
each page's changes are filtered for untrashed accepted images of the folder
that are not already processed; the walk stops at a `newStartPageToken`
(keeping it as the new cursor) or when `nextPageToken` is absent (the cursor
then becomes the absent token).  The `processed` set is never extended while
walking, so a file reported by two pages is collected twice. -/
def collect_changes (folderId : String) (processed : List String) :
    List ChangePage → Option String → List PhotoRef × Option String
  | [], tok => ([], tok)
  | page :: rest, _tok =>
      let news := page.changes.filterMap (fun c? =>
        match c? with
        | none => none
        | some f =>
            if acceptedImageMime f.mimeType && f.parents.contains folderId &&
                !f.trashed && !(processed.contains f.id)
            then some (PhotoRef.mk f.id f.name) else none)
      match page.newStartPageToken with
      | some t => (news, some t)
      | none =>
          match page.nextPageToken with
          | none => (news, none)
          | some nt =>
              let r := collect_changes folderId processed rest (some nt)
              (news ++ r.1, r.2)

/-- Per-photo body of the incremental loop of `run_incremental_indexing`:
identical to the full-run body except that there is no skip test (the new
photo list is already filtered) — `index_single_photo` inside try/except,
then checkpoint and counters. -/
def processPhotoIncr (fetch : String → Outcome) (eventId : String)
    (acc : RunAcc) (p : PhotoRef) : RunAcc :=
  match index_single_photo eventId p.id p.name (fetch p.id) acc.db with
  | .error _ => acc
  | .ok (db1, n) =>
      let indexed := acc.indexedPhotos + 1
      let total := acc.totalFaces + n
      let db2 := save_checkpoint db1 eventId p.id p.name n
      let db3 := { db2 with indexedPhotos := indexed, totalFaces := total }
      { db := db3
        indexedPhotos := indexed
        totalFaces := total
        trace := acc.trace ++ List.replicate n (Action.saveFace p.id) ++
          [Action.saveCheckpoint p.id n, Action.setCounters indexed total] }

/-- `run_incremental_indexing` of services/indexing_service.py,
non-exceptional path.  With no stored page token it bootstraps: fetch a fresh
start token, list one page of at most 1000 photos and keep the unprocessed
ones.  With a stored token it walks the changes feed.  In BOTH branches the
new cursor is UPDATEd and committed immediately after the photo list is
computed — before any photo of the batch is downloaded, embedded or
checkpointed.  If no new photo was found the event is marked Completed and
the task completes; otherwise the photos are processed, the event is marked
Completed with the new counters, checkpoints are cleared and the task
completes.  This function never invalidates the encoding cache. -/
def run_incremental_indexing (fetch : String → Outcome) (eventId folderId : String)
    (startPageToken : String) (remote : List DriveFile) (pages : List ChangePage)
    (db0 : DBState) : RunAcc :=
  let processed := get_indexed_photo_ids db0 eventId ++ get_checkpoint_photo_ids db0 eventId
  let found : List PhotoRef × Option String :=
    match db0.drivePageToken with
    | none =>
        let allPhotos := (drive_files_list remote folderId 1000).map
          (fun f => PhotoRef.mk f.id f.name)
        (allPhotos.filter (fun p => !(processed.contains p.id)), some startPageToken)
    | some tok => collect_changes folderId processed pages (some tok)
  let newPhotos := found.1
  let db1 := { db0 with drivePageToken := found.2 }
  let trace1 := [Action.saveToken found.2]
  if newPhotos.isEmpty then
    { db := { db1 with indexingStatus := "Completed" }
      indexedPhotos := db1.indexedPhotos
      totalFaces := db1.totalFaces
      trace := trace1 ++ [Action.setStatusOnly "Completed", Action.taskComplete] }
  else
    let st := newPhotos.foldl (processPhotoIncr fetch eventId)
      ⟨db1, db1.indexedPhotos, db1.totalFaces, trace1⟩
    let db2 := { st.db with
      indexingStatus := "Completed"
      indexedPhotos := st.indexedPhotos
      totalFaces := st.totalFaces }
    let db3 := clear_checkpoints db2 eventId
    { st with
      db := db3
      trace := st.trace ++
        [Action.setStatusCounters "Completed" st.indexedPhotos st.totalFaces,
         Action.clearCheckpoints, Action.taskComplete] }

/-- Per-photo body of the loop of `run_indexing_background` in app.py (the
in-process duplicate of the full run).  Differences to the service version:
a permanent download failure (`GoogleDriveError`) is caught by the photo
level handler and the photo is then STILL checkpointed with 0 faces, while
an `ImageProcessingError` increments the local photo counter and `continue`s
without writing a checkpoint or the counters. -/
def processPhotoApp (fetch : String → Outcome) (eventId : String)
    (processed : List String) (acc : RunAcc) (p : PhotoRef) : RunAcc :=
  if processed.contains p.id then acc
  else
    match fetch p.id with
    | .downloadFail =>
        let indexed := acc.indexedPhotos + 1
        let db2 := save_checkpoint acc.db eventId p.id p.name 0
        let db3 := { db2 with indexedPhotos := indexed, totalFaces := acc.totalFaces }
        { db := db3
          indexedPhotos := indexed
          totalFaces := acc.totalFaces
          trace := acc.trace ++
            [Action.saveCheckpoint p.id 0, Action.setCounters indexed acc.totalFaces] }
    | .extractFail =>
        { acc with indexedPhotos := acc.indexedPhotos + 1 }
    | .ok faces =>
        let r := save_faces_batch acc.db eventId p.id p.name faces
        let indexed := acc.indexedPhotos + 1
        let total := acc.totalFaces + r.2
        let db2 := save_checkpoint r.1 eventId p.id p.name r.2
        let db3 := { db2 with indexedPhotos := indexed, totalFaces := total }
        { db := db3
          indexedPhotos := indexed
          totalFaces := total
          trace := acc.trace ++ List.replicate r.2 (Action.saveFace p.id) ++
            [Action.saveCheckpoint p.id r.2, Action.setCounters indexed total] }

/-- `run_indexing_background` of app.py, non-exceptional path: checkpoint
snapshot, one listing page of at most 100 photos, per-photo loop, then mark
the event Completed, clear its checkpoints, invalidate the encoding cache
and complete the task — in that order. -/
def run_indexing_background (fetch : String → Outcome) (eventId folderId : String)
    (remote : List DriveFile) (db0 : DBState) : RunAcc :=
  let ckpts := eventCheckpoints db0 eventId
  let processed := ckpts.map (fun c => c.photoId)
  let totalFaces0 := (ckpts.map (fun c => c.facesFound)).sum
  let indexed0 := ckpts.length
  let photos := (drive_files_list remote folderId 100).map (fun f => PhotoRef.mk f.id f.name)
  let st := photos.foldl (processPhotoApp fetch eventId processed)
    ⟨db0, indexed0, totalFaces0, []⟩
  let db1 := { st.db with
    indexingStatus := "Completed"
    indexedPhotos := st.indexedPhotos
    totalFaces := st.totalFaces }
  let db2 := clear_checkpoints db1 eventId
  { st with
    db := db2
    trace := st.trace ++
      [Action.setStatusCounters "Completed" st.indexedPhotos st.totalFaces,
       Action.clearCheckpoints, Action.invalidateCache, Action.taskComplete] }

/-! ### The encoding cache and the matcher (services/face_matcher.py) -/

/-- One cache entry: parallel lists of encodings, photo ids and photo names
(the load timestamp carries no logic and is omitted). -/
structure CacheData where
  encodings : List (List Rat)
  photoIds : List String
  photoNames : List String
deriving DecidableEq, Repr

/-- The process-wide cache dictionary of `FaceCache`. -/
abbrev Cache := List (String × CacheData)

/-- `FaceCache.get`. -/
def cacheGet (c : Cache) (eventId : String) : Option CacheData :=
  (c.find? (fun kv => kv.1 == eventId)).map Prod.snd

/-- `FaceCache.set`: dict assignment — update the value in place if the key
exists, otherwise append. -/
def cacheSet (c : Cache) (eventId : String) (d : CacheData) : Cache :=
  if (c.map Prod.fst).contains eventId then
    c.map (fun kv => if kv.1 == eventId then (eventId, d) else kv)
  else c ++ [(eventId, d)]

/-- `load_encodings_from_db`: read the event's faces rows in insertion order
(ORDER BY indexed_at), return None if there are none, otherwise build the
parallel arrays, store them in the cache and return the fresh entry. -/
def load_encodings_from_db (db : DBState) (c : Cache) (eventId : String) :
    Option CacheData × Cache :=
  let rows := db.faces.filter (fun r => r.eventId == eventId)
  if rows.isEmpty then (none, c)
  else
    let data : CacheData :=
      ⟨rows.map (fun r => r.encoding), rows.map (fun r => r.photoId),
       rows.map (fun r => r.photoName)⟩
    let c1 := cacheSet c eventId data
    (cacheGet c1 eventId, c1)

/-- Squared Euclidean distance between two encodings
(`face_recognition.face_distance` returns its square root). -/
def distSq (a b : List Rat) : Rat :=
  ((a.zip b).map (fun q => (q.1 - q.2) * (q.1 - q.2))).sum

/-- A match entry of `find_matches`.  The source stores the Euclidean
distance; the embedding stores its square, which induces the same order. -/
structure MatchEntry where
  photoId : String
  photoName : String
  distanceSq : Rat
deriving DecidableEq, Repr

/-- The body of the matching loop: first occurrence of a photo id inserts an
entry, a later row of the same photo with a strictly smaller distance lowers
the stored distance in place. -/
def insertMatch (acc : List MatchEntry) (pid pname : String) (d : Rat) : List MatchEntry :=
  if (acc.map (fun m => m.photoId)).contains pid then
    acc.map (fun m => if m.photoId == pid && decide (d < m.distanceSq)
      then { m with distanceSq := d } else m)
  else acc ++ [⟨pid, pname, d⟩]

/-- The rows the matcher iterates over: photo id, photo name and the squared
distance of the stored encoding to the query encoding, in cache order. -/
def scoredRows (cd : CacheData) (search : List Rat) : List (String × String × Rat) :=
  (cd.photoIds.zip (cd.photoNames.zip cd.encodings)).map
    (fun t => (t.1, t.2.1, distSq search t.2.2))

/-- One iteration of the matching loop: rows within tolerance (squared
comparison) go through `insertMatch`, the rest are skipped. -/
def matchStep (tolSq : Rat) (acc : List MatchEntry) (r : String × String × Rat) :
    List MatchEntry :=
  if decide (r.2.2 ≤ tolSq) then insertMatch acc r.1 r.2.1 r.2.2 else acc

/-- The ascending-by-distance order of the final sort. -/
def matchLE (a b : MatchEntry) : Prop := a.distanceSq ≤ b.distanceSq

instance : DecidableRel matchLE := fun a b =>
  inferInstanceAs (Decidable (a.distanceSq ≤ b.distanceSq))

instance : IsTotal MatchEntry matchLE := ⟨fun a b => le_total a.distanceSq b.distanceSq⟩

instance : IsTrans MatchEntry matchLE := ⟨fun _ _ _ h h₂ => le_trans h h₂⟩

/-- The result dict of `find_matches` (the `tolerance_used` echo keeps the
un-squared tolerance argument). -/
structure SearchResult where
  matchList : List MatchEntry
  facesChecked : Nat
  matchesFound : Nat
  toleranceUsed : Rat
  usedCache : Bool
deriving DecidableEq, Repr

/-- The cache consultation block shared verbatim by `find_matches` and
`find_matches_cosine`: on `use_cache` read the cache and load from the
database on a miss; otherwise always load from the database. -/
def obtain_cache_entry (db : DBState) (c : Cache) (eventId : String) (useCache : Bool) :
    Option CacheData × Cache :=
  if useCache then
    match cacheGet c eventId with
    | some d => (some d, c)
    | none => load_encodings_from_db db c eventId
  else load_encodings_from_db db c eventId

/-- `find_matches`: obtain the cache entry (loading on a miss, or always
loading when `use_cache` is false), return the empty result when the event
has no encodings, otherwise keep rows with `distance <= tolerance`
(embedded as `distSq <= tolerance^2`), deduplicate per photo id keeping the
minimum, and sort ascending by distance.  `used_cache` re-reads the cache at
the end, so a miss-then-load reports True. -/
def find_matches (db : DBState) (c : Cache) (eventId : String)
    (search : List Rat) (tolerance : Rat) (useCache : Bool) : SearchResult × Cache :=
  let loaded := obtain_cache_entry db c eventId useCache
  match loaded.1 with
  | none =>
      ({ matchList := [], facesChecked := 0, matchesFound := 0,
         toleranceUsed := tolerance, usedCache := false }, loaded.2)
  | some cd =>
      let rows := scoredRows cd search
      let matching := rows.foldl (matchStep (tolerance * tolerance)) []
      let sorted := List.insertionSort matchLE matching
      ({ matchList := sorted, facesChecked := cd.photoIds.length,
         matchesFound := sorted.length, toleranceUsed := tolerance,
         usedCache := useCache && (cacheGet loaded.2 eventId).isSome }, loaded.2)

/-- A match entry of the cosine variant. -/
structure SimEntry where
  photoId : String
  photoName : String
  similarity : Rat
deriving DecidableEq, Repr

/-- Dedup body of the cosine variant: keep the maximum similarity per photo. -/
def insertMatchMax (acc : List SimEntry) (pid pname : String) (s : Rat) : List SimEntry :=
  if (acc.map (fun m => m.photoId)).contains pid then
    acc.map (fun m => if m.photoId == pid && decide (m.similarity < s)
      then { m with similarity := s } else m)
  else acc ++ [⟨pid, pname, s⟩]

/-- The descending-by-similarity order of the cosine sort. -/
def simGE (a b : SimEntry) : Prop := b.similarity ≤ a.similarity

instance : DecidableRel simGE := fun a b =>
  inferInstanceAs (Decidable (b.similarity ≤ a.similarity))

instance : IsTotal SimEntry simGE := ⟨fun a b => le_total b.similarity a.similarity⟩

instance : IsTrans SimEntry simGE := ⟨fun _ _ _ h h₂ => le_trans h₂ h⟩

/-- Result of the cosine variant. -/
structure CosineResult where
  matchList : List SimEntry
  facesChecked : Nat
  matchesFound : Nat
  thresholdUsed : Rat
  usedCache : Bool
deriving DecidableEq, Repr

/-- `find_matches_cosine`: same cache handling; every cached row is scored by
the normalized dot product with the query — an irrational real-vector
computation performed by numpy, taken as the input `sim` — rows with
`similarity >= threshold` are kept, deduplicated per photo keeping the
maximum, and sorted descending. -/
def find_matches_cosine (db : DBState) (c : Cache) (eventId : String)
    (sim : List Rat → Rat) (threshold : Rat) (useCache : Bool) :
    CosineResult × Cache :=
  let loaded := obtain_cache_entry db c eventId useCache
  match loaded.1 with
  | none =>
      ({ matchList := [], facesChecked := 0, matchesFound := 0,
         thresholdUsed := threshold, usedCache := false }, loaded.2)
  | some cd =>
      let rows := (cd.photoIds.zip (cd.photoNames.zip cd.encodings)).map
        (fun t => (t.1, t.2.1, sim t.2.2))
      let matching := rows.foldl
        (fun acc r => if decide (threshold ≤ r.2.2)
          then insertMatchMax acc r.1 r.2.1 r.2.2 else acc) []
      let sorted := List.insertionSort simGE matching
      ({ matchList := sorted, facesChecked := cd.photoIds.length,
         matchesFound := sorted.length, thresholdUsed := threshold,
         usedCache := useCache && (cacheGet loaded.2 eventId).isSome }, loaded.2)

/-! ### Task snapshots (class Task of app.py) -/

/-- Python `int()` applied to a real number: truncation toward zero. -/
def pyInt (q : Rat) : Int := if 0 ≤ q then ⌊q⌋ else -⌊-q⌋

/-- The Task fields `to_dict` reads.  Timestamps are rationals in seconds. -/
structure TaskState where
  status : String
  progress : Nat
  total : Nat
  startedAt : Option Rat
deriving DecidableEq, Repr

/-- The snapshot fields of the dict `to_dict` returns that carry logic. -/
structure TaskSnapshot where
  status : String
  progress : Nat
  total : Nat
  progressPercent : Int
  etaSeconds : Option Int
deriving DecidableEq, Repr

/-- `Task.to_dict` at time `now`: the ETA is computed only when the task is
running, has started and has nonzero progress, as
`int(elapsed / progress * (total - progress))`; otherwise it is None. -/
def task_to_dict (t : TaskState) (now : Rat) : TaskSnapshot :=
  let eta : Option Int :=
    match t.startedAt with
    | some s =>
        if t.status == "running" && decide (0 < t.progress) then
          some (pyInt ((now - s) / (t.progress : Rat) * ((t.total : Rat) - (t.progress : Rat))))
        else none
    | none => none
  { status := t.status
    progress := t.progress
    total := t.total
    progressPercent :=
      if 0 < t.total then pyInt ((t.progress : Rat) / (t.total : Rat) * 100) else 0
    etaSeconds := eta }

/-- The ETA formula as the specification words it:
`perItem = elapsed / progress; eta = perItem * (total - progress)`
(for the running, progress > 0 case), as an exact rational. -/
def etaFormulaSpec (elapsed : Rat) (progress total : Nat) : Rat :=
  elapsed / (progress : Rat) * ((total : Rat) - (progress : Rat))

/-! ### Derived views and concrete worlds used by the theorems -/

/-- The scope of a full indexing run as the code computes it: the single
listing page of at most 100 photos, minus those of the checkpoint snapshot
(the photos the per-photo loop does not skip). -/
def full_indexing_scope (remote : List DriveFile) (db : DBState)
    (eventId folderId : String) : List PhotoRef :=
  ((drive_files_list remote folderId 100).map (fun f => PhotoRef.mk f.id f.name)).filter
    (fun p => !((get_checkpoint_photo_ids db eventId).contains p.id))

/-- Faces found per photo outcome (0 when the photo cannot be processed). -/
def outcomeFaces : Outcome → Nat
  | .downloadFail => 0
  | .extractFail => 0
  | .ok faces => faces.length

/-- A database that has never been indexed. -/
def emptyDB : DBState :=
  { faces := [], checkpoints := [], indexingStatus := "Not Started",
    indexedPhotos := 0, totalFaces := 0, drivePageToken := none }

/-- A world where every downloaded photo contains exactly one face. -/
def fetchOneFace : String → Outcome :=
  fun _ => Outcome.ok [⟨[1], ⟨0, 0, 0, 0⟩⟩]

/-- A folder holding a single photo. -/
def oneFileRemote : List DriveFile :=
  [⟨"p1", "pic1.jpg", "image/jpeg", ["folder1"], false⟩]

/-- A folder holding 101 accepted, untrashed photos. -/
def remote101 : List DriveFile :=
  (List.range 101).map (fun i => ⟨toString i, toString i, "image/jpeg", ["folder1"], false⟩)

/-- First full run over the one-photo folder, from the fresh database. -/
def demoRun1 : RunAcc := run_full_indexing fetchOneFace "e1" "folder1" oneFileRemote emptyDB

/-- Second full run over the unchanged folder, from the completed state. -/
def demoRun2 : RunAcc := run_full_indexing fetchOneFace "e1" "folder1" oneFileRemote demoRun1.db

/-- A database whose event already holds a page token. -/
def tokenDB : DBState := { emptyDB with drivePageToken := some "t0" }

/-- A changes feed reporting one new photo and a fresh start token. -/
def onePhotoPages : List ChangePage :=
  [{ changes := [some ⟨"p1", "pic1.jpg", "image/jpeg", ["folder1"], false⟩]
     nextPageToken := none
     newStartPageToken := some "t1" }]

/-- The incremental run over that one-photo delta. -/
def demoIncr : RunAcc :=
  run_incremental_indexing fetchOneFace "e1" "folder1" "s0" [] onePhotoPages tokenDB

/-- The squared distances of the scored rows of one photo that lie within
the squared tolerance, in row order. -/
def withinVals (tolSq : Rat) (L : List (String × String × Rat)) (pid : String) : List Rat :=
  (L.filter (fun r => r.1 == pid && decide (r.2.2 ≤ tolSq))).map (fun r => r.2.2)

/-- Invariant of the matching loop after consuming the rows `L`: the
accumulator holds exactly one entry per photo that has a row within
tolerance, and each entry carries the least within-tolerance squared
distance of its photo. -/
def GoodAcc (tolSq : Rat) (L : List (String × String × Rat)) (A : List MatchEntry) : Prop :=
  (∀ pid, (A.filter (fun m => m.photoId == pid)).length =
      if withinVals tolSq L pid = [] then 0 else 1) ∧
  (∀ m ∈ A, m.distanceSq ∈ withinVals tolSq L m.photoId ∧
      ∀ d ∈ withinVals tolSq L m.photoId, m.distanceSq ≤ d)

/-- The `(collection, asset)` key of every checkpoint row, in table order. -/
def checkpointKeys (db : DBState) : List (String × String) :=
  db.checkpoints.map (fun c => (c.eventId, c.photoId))

/-- A world where every download fails permanently. -/
def fetchDown : String → Outcome := fun _ => Outcome.downloadFail

/-- A world where the extractor fails on every photo. -/
def fetchBad : String → Outcome := fun _ => Outcome.extractFail

/-- A searched corpus: three faces of photo pA (squared distances 0, 9, 1
from the null query) and one face of photo pB (squared distance 100). -/
def matchDemoDB : DBState :=
  { faces :=
      [⟨"e1", "pA", "a.jpg", [0], ⟨0, 0, 0, 0⟩⟩, ⟨"e1", "pA", "a.jpg", [3], ⟨0, 0, 0, 0⟩⟩,
       ⟨"e1", "pA", "a.jpg", [1], ⟨0, 0, 0, 0⟩⟩, ⟨"e1", "pB", "b.jpg", [10], ⟨0, 0, 0, 0⟩⟩]
    checkpoints := []
    indexingStatus := "Completed"
    indexedPhotos := 4
    totalFaces := 4
    drivePageToken := none }

/-! ## Theorems -/

/-- Claim C1 (evaluation of the failing input): on an incremental run whose
delta reports one new photo `p1`, the trace shows the new sync token being
persisted FIRST — before `p1` is embedded or checkpointed — so the reachable
crash state right after the token write has the token advanced past an
asset that is neither checkpointed nor embedded, contradicting the claimed
ordering.  The second conjunct states the ordering violation explicitly. -/
theorem C1_token_persisted_before_batch_checkpoints :
    demoIncr.trace =
      [Action.saveToken (some "t1"), Action.saveFace "p1", Action.saveCheckpoint "p1" 1,
       Action.setCounters 1 1, Action.setStatusCounters "Completed" 1 1,
       Action.clearCheckpoints, Action.taskComplete] ∧
    demoIncr.trace.indexOf (Action.saveToken (some "t1")) <
      demoIncr.trace.indexOf (Action.saveCheckpoint "p1" 1) := by
  constructor <;> decide

/-- Claim C2 (counterexample): a full run over one photo with one face,
run to completion and then again over the unchanged folder, inserts a second
FaceEmbedding row (1 becomes 2) and writes a new checkpoint during the second
run — the second run is not a no-op over an empty scope. -/
theorem C2_second_run_not_noop_counterexample :
    demoRun1.db.faces.length = 1 ∧ demoRun2.db.faces.length = 2 ∧
    Action.saveCheckpoint "p1" 1 ∈ demoRun2.trace := by
  refine ⟨by decide, by decide, by decide⟩

/-- Claim C3 (counterexample): the service full run (`run_full_indexing` of
services/indexing_service.py) reaches Completed and signals task completion
without ever invalidating the Encoding Cache entry of the collection. -/
theorem C3_service_run_completes_without_invalidation :
    Action.taskComplete ∈ demoRun1.trace ∧ Action.invalidateCache ∉ demoRun1.trace := by
  refine ⟨by decide, by decide⟩

set_option maxRecDepth 40000 in
/-- Claim C5 (counterexample): with 101 accepted, untrashed, unchecked
photos in the folder, the full run's scope holds only 100 of them — the
listing consumes a single page of 100 and never follows `nextPageToken` —
and the run indeed embeds only 100 one-face photos.  The claimed scope
("every asset currently in the collection minus those checkpointed,
regardless of how many assets the collection contains") would hold 101. -/
theorem C5_scope_truncated_to_one_page_counterexample :
    (remote101.filter (fun f => f.parents.contains "folder1" &&
        acceptedImageMime f.mimeType && !f.trashed)).length = 101 ∧
    (full_indexing_scope remote101 emptyDB "e1" "folder1").length = 100 ∧
    (run_full_indexing fetchOneFace "e1" "folder1" remote101 emptyDB).db.faces.length = 100 := by
  refine ⟨by decide, by decide, by decide⟩

/-- Claim C6 (counterexample): `save_checkpoint` is a plain INSERT, not an
upsert: two calls for the same `(collection, asset)` pair leave two rows,
violating the claimed at-most-one invariant over arbitrary call sequences. -/
theorem C6_save_checkpoint_not_upsert_counterexample :
    ¬ (((save_checkpoint (save_checkpoint emptyDB "e1" "p1" "pic1.jpg" 2)
        "e1" "p1" "pic1.jpg" 2).checkpoints.filter
          (fun c => c.eventId == "e1" && c.photoId == "p1")).length ≤ 1) := by
  decide

/-- Claim C9 (counterexample): with a running task at progress 2 of 3 that
started 3 seconds ago, the snapshot reports `eta_seconds = 1` (the `int()`
truncation), while elapsed / progress * (total - progress) = 3/2, so the
reported ETA does not equal the claimed expression. -/
theorem C9_eta_truncated_counterexample :
    (task_to_dict ⟨"running", 2, 3, some 0⟩ 3).etaSeconds = some 1 ∧
    etaFormulaSpec (3 - 0) 2 3 = 3 / 2 ∧ ¬ ((1 : Rat) = 3 / 2) := by
  refine ⟨by norm_num [task_to_dict, pyInt], by norm_num [etaFormulaSpec], by norm_num⟩

/-- Claim C9 (amended): the snapshot omits the ETA whenever the task is not
running or its progress is zero; for a started running task with positive
progress the reported ETA is the integer truncation (whole seconds) of
elapsed-since-start / progress * (total - progress). -/
theorem C9_eta_snapshot (t : TaskState) (now s : Rat) :
    (t.startedAt = some s → t.status = "running" → 0 < t.progress →
      (task_to_dict t now).etaSeconds =
        some (pyInt (etaFormulaSpec (now - s) t.progress t.total))) ∧
    ((t.status ≠ "running" ∨ t.progress = 0) → (task_to_dict t now).etaSeconds = none) := by
  constructor
  · intro hs hst hp
    simp [task_to_dict, hs, hst, hp, etaFormulaSpec]
  · intro h
    cases hs : t.startedAt with
    | none => simp [task_to_dict, hs]
    | some s2 =>
        rcases h with h | h
        · simp [task_to_dict, hs, h]
        · simp [task_to_dict, hs, h]

/-- Witness for C9_eta_snapshot at concrete inputs. -/
theorem C9_eta_snapshot_witness :
    (task_to_dict ⟨"running", 2, 4, some 0⟩ 3).etaSeconds =
      some (pyInt (etaFormulaSpec (3 - 0) 2 4)) ∧
    (task_to_dict ⟨"pending", 2, 4, some 0⟩ 3).etaSeconds = none :=
  ⟨(C9_eta_snapshot ⟨"running", 2, 4, some 0⟩ 3 0).1 rfl rfl (by decide),
   (C9_eta_snapshot ⟨"pending", 2, 4, some 0⟩ 3 0).2 (Or.inl (by decide))⟩

/-- Claim C10: searching a collection with zero stored embeddings (and no
stale cache entry for it) returns normally with an empty match list,
`faces_checked = 0`, `matches_found = 0` and `used_cache = False`, for every
tolerance, query encoding and `use_cache` flag. -/
theorem C10_empty_corpus_search (db : DBState) (c : Cache) (eventId : String)
    (search : List Rat) (tolerance : Rat) (useCache : Bool)
    (hdb : db.faces.filter (fun r => r.eventId == eventId) = [])
    (hc : cacheGet c eventId = none) :
    (find_matches db c eventId search tolerance useCache).1 =
      { matchList := [], facesChecked := 0, matchesFound := 0,
        toleranceUsed := tolerance, usedCache := false } := by
  unfold find_matches obtain_cache_entry load_encodings_from_db
  cases useCache <;> simp [hdb, hc]

/-- Witness for C10_empty_corpus_search at concrete inputs. -/
theorem C10_empty_corpus_search_witness :
    (find_matches emptyDB [] "e1" [1] (1 / 2) true).1 =
      { matchList := [], facesChecked := 0, matchesFound := 0,
        toleranceUsed := 1 / 2, usedCache := false } :=
  C10_empty_corpus_search emptyDB [] "e1" [1] (1 / 2) true rfl rfl

/-- Claim C4: in the per-asset pipeline of the service full run, a permanent
download failure changes nothing — in particular no checkpoint is written,
so the asset stays in the scope of the next run — while an extractor failure
or a successful extraction with zero faces writes exactly one checkpoint
with 0 faces found and no embedding rows; in every case the fold proceeds
with the next photo. -/
theorem C4_per_photo_failure_semantics (fetch : String → Outcome) (eventId : String)
    (processed : List String) (acc : RunAcc) (p : PhotoRef)
    (hp : processed.contains p.id = false) :
    (fetch p.id = Outcome.downloadFail →
      processPhotoFull fetch eventId processed acc p = acc) ∧
    (fetch p.id = Outcome.extractFail →
      (processPhotoFull fetch eventId processed acc p).db.checkpoints =
        acc.db.checkpoints ++ [⟨eventId, p.id, p.name, 0⟩] ∧
      (processPhotoFull fetch eventId processed acc p).db.faces = acc.db.faces) ∧
    (fetch p.id = Outcome.ok [] →
      (processPhotoFull fetch eventId processed acc p).db.checkpoints =
        acc.db.checkpoints ++ [⟨eventId, p.id, p.name, 0⟩] ∧
      (processPhotoFull fetch eventId processed acc p).db.faces = acc.db.faces) := by
  have hp2 : ¬ p.id ∈ processed := by simpa using hp
  refine ⟨fun h => ?_, fun h => ?_, fun h => ?_⟩ <;>
    simp [processPhotoFull, hp2, h, index_single_photo, save_checkpoint]

/-- Witness for C4_per_photo_failure_semantics at concrete inputs. -/
theorem C4_per_photo_failure_semantics_witness :
    processPhotoFull fetchDown "e1" [] ⟨emptyDB, 0, 0, []⟩ ⟨"p1", "pic1.jpg"⟩ =
      ⟨emptyDB, 0, 0, []⟩ ∧
    (processPhotoFull fetchBad "e1" [] ⟨emptyDB, 0, 0, []⟩ ⟨"p1", "pic1.jpg"⟩).db.checkpoints =
      emptyDB.checkpoints ++ [⟨"e1", "p1", "pic1.jpg", 0⟩] :=
  ⟨(C4_per_photo_failure_semantics fetchDown "e1" [] ⟨emptyDB, 0, 0, []⟩
      ⟨"p1", "pic1.jpg"⟩ rfl).1 rfl,
   ((C4_per_photo_failure_semantics fetchBad "e1" [] ⟨emptyDB, 0, 0, []⟩
      ⟨"p1", "pic1.jpg"⟩ rfl).2.1 rfl).1⟩

/-- Claim C8: the Euclidean matcher returns its match list sorted ascending
by distance (equivalently by squared distance), and the cosine variant
returns its match list sorted descending by similarity — for every database,
cache, query, tolerance, threshold and similarity scoring. -/
theorem C8_match_lists_sorted (db : DBState) (c : Cache) (eventId : String)
    (search : List Rat) (tolerance : Rat) (useCache : Bool)
    (sim : List Rat → Rat) (threshold : Rat) :
    (find_matches db c eventId search tolerance useCache).1.matchList.Sorted matchLE ∧
    (find_matches_cosine db c eventId sim threshold useCache).1.matchList.Sorted simGE := by
  constructor
  · unfold find_matches
    cases hL : (obtain_cache_entry db c eventId useCache).1 with
    | none => simp [hL]
    | some cd =>
        simp only [hL]
        exact List.sorted_insertionSort matchLE _
  · unfold find_matches_cosine
    cases hL : (obtain_cache_entry db c eventId useCache).1 with
    | none => simp [hL]
    | some cd =>
        simp only [hL]
        exact List.sorted_insertionSort simGE _

/-- The app per-photo body only ever appends face, checkpoint and counter
writes to the trace — never a completion signal. -/
theorem processPhotoApp_trace_no_signal (fetch : String → Outcome) (eventId : String)
    (processed : List String) (acc : RunAcc) (p : PhotoRef)
    (h : Action.taskComplete ∉ acc.trace) :
    Action.taskComplete ∉ (processPhotoApp fetch eventId processed acc p).trace := by
  unfold processPhotoApp
  split
  · exact h
  · cases hf : fetch p.id <;> simp [h, List.mem_replicate]

/-- The full per-photo loop of the app run never emits a completion signal. -/
theorem foldApp_trace_no_signal (fetch : String → Outcome) (eventId : String)
    (processed : List String) :
    ∀ (photos : List PhotoRef) (acc : RunAcc), Action.taskComplete ∉ acc.trace →
      Action.taskComplete ∉
        (photos.foldl (processPhotoApp fetch eventId processed) acc).trace
  | [], _, h => h
  | p :: rest, acc, h =>
      foldApp_trace_no_signal fetch eventId processed rest
        (processPhotoApp fetch eventId processed acc p)
        (processPhotoApp_trace_no_signal fetch eventId processed acc p h)

/-- Splitting the completion epilogue of the app run off a signal-free body. -/
theorem epilogue_split (l : List Action) (i f2 : Nat)
    (h : Action.taskComplete ∉ l) :
    ∃ pre, (l ++ [Action.setStatusCounters "Completed" i f2, Action.clearCheckpoints,
        Action.invalidateCache, Action.taskComplete]) =
        pre ++ [Action.invalidateCache, Action.taskComplete] ∧
      Action.taskComplete ∉ pre := by
  refine ⟨l ++ [Action.setStatusCounters "Completed" i f2, Action.clearCheckpoints],
    by simp, ?_⟩
  intro hm
  rcases List.mem_append.mp hm with hm | hm
  · exact h hm
  · simp at hm

/-- Claim C3 (amended): the app background run (`run_indexing_background` of
app.py) invalidates the collection's Encoding Cache entry before releasing
the completion signal: its trace ends with the invalidation immediately
followed by the task-completion signal, and no completion signal occurs
earlier.  (The service-layer `run_full_indexing` does not invalidate at all
— see the counterexample — and the incremental run's no-new-photos path
completes without invalidating.) -/
theorem C3_app_run_invalidates_before_completion (fetch : String → Outcome)
    (eventId folderId : String) (remote : List DriveFile) (db0 : DBState) :
    ∃ pre, (run_indexing_background fetch eventId folderId remote db0).trace =
        pre ++ [Action.invalidateCache, Action.taskComplete] ∧
      Action.taskComplete ∉ pre := by
  unfold run_indexing_background
  exact epilogue_split _ _ _
    (foldApp_trace_no_signal fetch eventId _ _ _ (by simp))

/-- Filtering by a predicate after keeping its complement yields nothing. -/
theorem filter_not_filter {α : Type} (p : α → Bool) (l : List α) :
    (l.filter (fun a => !(p a))).filter p = [] := by
  induction l with
  | nil => rfl
  | cons a t ih => cases h : p a <;> simp [h, ih]

/-- Clearing a collection's checkpoints leaves it without checkpoint rows. -/
theorem eventCheckpoints_clear (db : DBState) (eventId : String) :
    eventCheckpoints (clear_checkpoints db eventId) eventId = [] := by
  unfold eventCheckpoints clear_checkpoints
  exact filter_not_filter _ _

/-- A completed full run leaves the collection with zero checkpoint rows. -/
theorem run_full_clears_checkpoints (fetch : String → Outcome)
    (eventId folderId : String) (remote : List DriveFile) (db : DBState) :
    eventCheckpoints (run_full_indexing fetch eventId folderId remote db).db eventId = [] := by
  unfold run_full_indexing
  exact eventCheckpoints_clear _ _

/-- Length of the faces table after a batch insert. -/
theorem save_faces_fold_length (eventId photoId photoName : String) :
    ∀ (faces : List Face) (db : DBState),
      ((faces.foldl (fun d f => save_face_to_db d eventId photoId photoName f) db)).faces.length
        = db.faces.length + faces.length
  | [], _ => rfl
  | f :: fs, db => by
      rw [List.foldl_cons, save_faces_fold_length eventId photoId photoName fs]
      simp [save_face_to_db]
      omega

/-- With an empty skip snapshot, each photo of the full loop adds exactly
its outcome's face count to the faces table. -/
theorem foldFull_faces_length (fetch : String → Outcome) (eventId : String) :
    ∀ (photos : List PhotoRef) (acc : RunAcc),
      ((photos.foldl (processPhotoFull fetch eventId []) acc)).db.faces.length =
        acc.db.faces.length + (photos.map (fun p => outcomeFaces (fetch p.id))).sum
  | [], _ => by simp
  | p :: rest, acc => by
      rw [List.foldl_cons, foldFull_faces_length fetch eventId rest]
      have step : (processPhotoFull fetch eventId [] acc p).db.faces.length
          = acc.db.faces.length + outcomeFaces (fetch p.id) := by
        unfold processPhotoFull index_single_photo
        cases hf : fetch p.id with
        | downloadFail => simp [outcomeFaces]
        | extractFail => simp [outcomeFaces, save_checkpoint]
        | ok faces =>
            cases faces with
            | nil => simp [outcomeFaces, save_checkpoint]
            | cons f fs =>
                simp only [List.contains, List.elem_nil, Bool.false_eq_true, if_false,
                  List.isEmpty_cons, save_faces_batch, save_checkpoint, outcomeFaces]
                have hl := save_faces_fold_length eventId p.id p.name (f :: fs) acc.db
                rw [List.foldl_cons] at hl
                simpa using hl
      rw [step]
      simp
      omega

/-- With no pre-existing checkpoints for the collection, a full run embeds
exactly the outcome face counts of the listed photos. -/
theorem run_full_faces_length_no_ckpts (fetch : String → Outcome)
    (eventId folderId : String) (remote : List DriveFile) (db : DBState)
    (h : eventCheckpoints db eventId = []) :
    (run_full_indexing fetch eventId folderId remote db).db.faces.length =
      db.faces.length +
        ((drive_files_list remote folderId 100).map (fun f => outcomeFaces (fetch f.id))).sum := by
  simp only [run_full_indexing, h, List.map_nil, clear_checkpoints]
  rw [foldFull_faces_length]
  simp only [List.map_map]
  rfl

/-- Claim C2 (amended): because a completed full run clears the collection's
checkpoints and the full run's skip set consists of checkpointed photos
only, running the full run to completion and then again over the unchanged
folder re-processes every listed photo: the second run inserts one new
FaceEmbedding row per face found (duplicating the corpus rather than being
a no-op), writes a fresh checkpoint per photo during the run, and again
ends with zero checkpoints. -/
theorem C2_second_full_run_reprocesses_everything (fetch : String → Outcome)
    (eventId folderId : String) (remote : List DriveFile) (db0 : DBState) :
    (run_full_indexing fetch eventId folderId remote
        (run_full_indexing fetch eventId folderId remote db0).db).db.faces.length =
      (run_full_indexing fetch eventId folderId remote db0).db.faces.length +
        ((drive_files_list remote folderId 100).map (fun f => outcomeFaces (fetch f.id))).sum ∧
    eventCheckpoints (run_full_indexing fetch eventId folderId remote
        (run_full_indexing fetch eventId folderId remote db0).db).db eventId = [] := by
  exact ⟨run_full_faces_length_no_ckpts fetch eventId folderId remote _
      (run_full_clears_checkpoints fetch eventId folderId remote db0),
    run_full_clears_checkpoints fetch eventId folderId remote _⟩

/-- Claim C5 (amended): the full run's scope equals every accepted,
untrashed asset of the folder minus those with an existing checkpoint,
PROVIDED the folder holds at most 100 matching assets — the listing consumes
a single page of 100, so larger collections are truncated (see the
counterexample). -/
theorem C5_scope_equals_unchecked_assets_of_small_collection
    (remote : List DriveFile) (db : DBState) (eventId folderId : String) (p : PhotoRef)
    (h : (remote.filter (fun f => f.parents.contains folderId &&
        acceptedImageMime f.mimeType && !f.trashed)).length ≤ 100) :
    p ∈ full_indexing_scope remote db eventId folderId ↔
      ((∃ f ∈ remote, (f.parents.contains folderId && acceptedImageMime f.mimeType &&
          !f.trashed) = true ∧ p = PhotoRef.mk f.id f.name) ∧
        p.id ∉ get_checkpoint_photo_ids db eventId) := by
  unfold full_indexing_scope drive_files_list
  rw [List.take_of_length_le h]
  simp only [List.mem_filter, List.mem_map, List.elem_iff]
  constructor
  · rintro ⟨⟨f, ⟨hf, hcond⟩, hp⟩, hnc⟩
    exact ⟨⟨f, hf, hcond, hp.symm⟩, by simpa using hnc⟩
  · rintro ⟨⟨f, hf, hcond, hp⟩, hnc⟩
    exact ⟨⟨f, ⟨hf, hcond⟩, hp.symm⟩, by simpa using hnc⟩

/-- Witness for C5_scope_equals_unchecked_assets_of_small_collection at a
concrete one-photo folder. -/
theorem C5_scope_small_collection_witness :
    PhotoRef.mk "p1" "pic1.jpg" ∈ full_indexing_scope oneFileRemote emptyDB "e1" "folder1" ↔
      ((∃ f ∈ oneFileRemote, (f.parents.contains "folder1" && acceptedImageMime f.mimeType &&
          !f.trashed) = true ∧ PhotoRef.mk "p1" "pic1.jpg" = PhotoRef.mk f.id f.name) ∧
        (PhotoRef.mk "p1" "pic1.jpg").id ∉ get_checkpoint_photo_ids emptyDB "e1") :=
  C5_scope_equals_unchecked_assets_of_small_collection oneFileRemote emptyDB "e1" "folder1"
    (PhotoRef.mk "p1" "pic1.jpg") (by decide)

/-- A batch face insert never touches the checkpoint table. -/
theorem save_faces_fold_checkpoints (eventId photoId photoName : String) :
    ∀ (faces : List Face) (db : DBState),
      ((faces.foldl (fun d f => save_face_to_db d eventId photoId photoName f) db)).checkpoints
        = db.checkpoints
  | [], _ => rfl
  | f :: fs, db => by
      rw [List.foldl_cons, save_faces_fold_checkpoints eventId photoId photoName fs]
      rfl

/-- One full-loop iteration either leaves the checkpoint table unchanged
(skipped or failed photo) or appends exactly one row for an unskipped photo. -/
theorem processPhotoFull_checkpoints (fetch : String → Outcome) (eventId : String)
    (processed : List String) (acc : RunAcc) (p : PhotoRef) :
    (processPhotoFull fetch eventId processed acc p).db.checkpoints = acc.db.checkpoints ∨
    (processed.contains p.id = false ∧
      (processPhotoFull fetch eventId processed acc p).db.checkpoints =
        acc.db.checkpoints ++ [⟨eventId, p.id, p.name, outcomeFaces (fetch p.id)⟩]) := by
  unfold processPhotoFull index_single_photo
  cases hc : processed.contains p.id with
  | true => left; simp [hc]
  | false =>
      cases hf : fetch p.id with
      | downloadFail => left; simp [hc, hf]
      | extractFail =>
          right
          exact ⟨rfl, by simp [hc, hf, outcomeFaces, save_checkpoint]⟩
      | ok faces =>
          right
          refine ⟨rfl, ?_⟩
          cases faces with
          | nil => simp [hc, hf, outcomeFaces, save_checkpoint]
          | cons f fs =>
              simp only [hc, hf, Bool.false_eq_true, if_false, List.isEmpty_cons,
                save_faces_batch, save_checkpoint, outcomeFaces]
              rw [save_faces_fold_checkpoints]

/-- Claim C6 (amended): `save_checkpoint` is a plain INSERT (see the
counterexample), but the full indexing loop nevertheless preserves the
at-most-one-checkpoint-per-(collection, asset) invariant: starting from a
table with pairwise distinct keys, with distinct listed photo ids, and with
no key already present for an unskipped photo (which holds at run start,
where the skip set is exactly the collection's checkpointed ids), every
state the loop produces keeps the keys pairwise distinct — the loop
checkpoints each unskipped photo exactly once. -/
theorem C6_full_loop_preserves_unique_checkpoint_keys (fetch : String → Outcome)
    (eventId : String) (processed : List String) :
    ∀ (photos : List PhotoRef) (acc : RunAcc),
      (checkpointKeys acc.db).Nodup →
      (photos.map (fun p => p.id)).Nodup →
      (∀ p ∈ photos, processed.contains p.id = false →
        (eventId, p.id) ∉ checkpointKeys acc.db) →
      (checkpointKeys (photos.foldl (processPhotoFull fetch eventId processed) acc).db).Nodup
  | [], _, h1, _, _ => h1
  | p :: rest, acc, h1, h2, h3 => by
      rw [List.foldl_cons]
      have h2r : (rest.map (fun q => q.id)).Nodup := (List.nodup_cons.mp h2).2
      have hpid : p.id ∉ rest.map (fun q => q.id) := (List.nodup_cons.mp h2).1
      rcases processPhotoFull_checkpoints fetch eventId processed acc p with hk | ⟨hcf, hk⟩
      · have hkeys : checkpointKeys (processPhotoFull fetch eventId processed acc p).db =
            checkpointKeys acc.db := by
          unfold checkpointKeys
          rw [hk]
        exact C6_full_loop_preserves_unique_checkpoint_keys fetch eventId processed rest _
          (by rw [hkeys]; exact h1) h2r
          (fun q hq hqc => by rw [hkeys]; exact h3 q (List.mem_cons_of_mem p hq) hqc)
      · have hkeys : checkpointKeys (processPhotoFull fetch eventId processed acc p).db =
            checkpointKeys acc.db ++ [(eventId, p.id)] := by
          unfold checkpointKeys
          rw [hk, List.map_append]
          rfl
        have hnew : (eventId, p.id) ∉ checkpointKeys acc.db :=
          h3 p (List.mem_cons_self p rest) hcf
        refine C6_full_loop_preserves_unique_checkpoint_keys fetch eventId processed rest _
          ?_ h2r ?_
        · rw [hkeys]
          refine List.Nodup.append h1 (List.nodup_singleton _) ?_
          intro k hkmem hkmem2
          rw [List.mem_singleton] at hkmem2
          exact hnew (hkmem2 ▸ hkmem)
        · intro q hq hqc
          rw [hkeys, List.mem_append, List.mem_singleton]
          rintro (hmem | heq)
          · exact h3 q (List.mem_cons_of_mem p hq) hqc hmem
          · have : q.id = p.id := congrArg Prod.snd heq
            exact hpid (this ▸ List.mem_map_of_mem (fun q => q.id) hq)

/-- Witness for C6_full_loop_preserves_unique_checkpoint_keys at a concrete
one-photo run. -/
theorem C6_full_loop_unique_keys_witness :
    (checkpointKeys (([⟨"p1", "pic1.jpg"⟩] : List PhotoRef).foldl
      (processPhotoFull fetchOneFace "e1" []) ⟨emptyDB, 0, 0, []⟩).db).Nodup :=
  C6_full_loop_preserves_unique_checkpoint_keys fetchOneFace "e1" [] [⟨"p1", "pic1.jpg"⟩]
    ⟨emptyDB, 0, 0, []⟩ (by decide) (by decide) (by decide)

/-- Reading a cache key right after setting it returns the stored entry. -/
theorem cacheGet_set_self (eventId : String) (d : CacheData) :
    ∀ c : Cache, cacheGet (cacheSet c eventId d) eventId = some d := by
  intro c
  unfold cacheSet
  by_cases h : (c.map Prod.fst).contains eventId
  · simp only [h, if_true]
    induction c with
    | nil => simp at h
    | cons kv t ih =>
        cases hkv : kv.1 == eventId with
        | true => simp [cacheGet, List.find?, hkv]
        | false =>
            have ht : (t.map Prod.fst).contains eventId = true := by
              have hne : (eventId == kv.1) = false := by
                cases hb : (eventId == kv.1) with
                | false => rfl
                | true =>
                    rw [beq_iff_eq] at hb
                    rw [hb] at hkv
                    simp at hkv
              simpa [List.map_cons, List.contains_cons, hne] using h
            have := ih ht
            simp only [cacheGet, List.map_cons, List.find?] at this ⊢
            simpa [hkv] using this
  · rw [if_neg h]
    have hnone : c.find? (fun kv => kv.1 == eventId) = none := by
      rw [List.find?_eq_none]
      intro kv hkv hbeq
      refine h ?_
      have : kv.1 = eventId := by simpa using hbeq
      simp only [List.contains, List.elem_eq_mem, decide_eq_true_eq]
      exact this ▸ List.mem_map_of_mem Prod.fst hkv
    unfold cacheGet
    rw [List.find?_append, hnone]
    simp [List.find?]

/-- The scored rows of a cache entry built from an event's face rows are
exactly the row projections with their squared distances. -/
theorem scoredRows_of_rows (rows : List FaceRow) (search : List Rat) :
    scoredRows ⟨rows.map (fun r => r.encoding), rows.map (fun r => r.photoId),
        rows.map (fun r => r.photoName)⟩ search =
      rows.map (fun r => (r.photoId, r.photoName, distSq search r.encoding)) := by
  unfold scoredRows
  dsimp only
  rw [List.zip_map' (fun r : FaceRow => r.photoName) (fun r : FaceRow => r.encoding) rows]
  rw [List.zip_map' (fun r : FaceRow => r.photoId)
    (fun r : FaceRow => (r.photoName, r.encoding)) rows]
  rw [List.map_map]
  rfl

/-- Appending one scored row extends a photo's within-tolerance distances by
its distance exactly when the row belongs to the photo and lies within. -/
theorem withinVals_append (tolSq : Rat) (L : List (String × String × Rat))
    (r : String × String × Rat) (q : String) :
    withinVals tolSq (L ++ [r]) q =
      withinVals tolSq L q ++
        (if (r.1 == q && decide (r.2.2 ≤ tolSq)) = true then [r.2.2] else []) := by
  unfold withinVals
  rw [List.filter_append, List.map_append]
  congr 1
  cases h : (r.1 == q && decide (r.2.2 ≤ tolSq)) <;> simp [List.filter, h]

/-- A row of another photo does not change a photo's within list. -/
theorem withinVals_append_ne (tolSq : Rat) (L : List (String × String × Rat))
    (r : String × String × Rat) (q : String) (h : (r.1 == q) = false) :
    withinVals tolSq (L ++ [r]) q = withinVals tolSq L q := by
  rw [withinVals_append]
  simp [h]

/-- A row beyond tolerance does not change any within list. -/
theorem withinVals_append_far (tolSq : Rat) (L : List (String × String × Rat))
    (r : String × String × Rat) (q : String) (h : ¬ r.2.2 ≤ tolSq) :
    withinVals tolSq (L ++ [r]) q = withinVals tolSq L q := by
  rw [withinVals_append]
  simp [h]

/-- A row of the photo within tolerance appends its distance. -/
theorem withinVals_append_hit (tolSq : Rat) (L : List (String × String × Rat))
    (r : String × String × Rat) (h : r.2.2 ≤ tolSq) :
    withinVals tolSq (L ++ [r]) r.1 = withinVals tolSq L r.1 ++ [r.2.2] := by
  rw [withinVals_append]
  simp [h]

/-- The in-place update of `insertMatch` preserves every entry's photo id. -/
theorem insertMatch_update_photoId (pid : String) (d : Rat) (m : MatchEntry) :
    (if (m.photoId == pid && decide (d < m.distanceSq)) = true
      then { m with distanceSq := d } else m).photoId = m.photoId := by
  split <;> rfl

/-- One step of the matching loop preserves the accumulator invariant. -/
theorem goodAcc_step (tolSq : Rat) (L : List (String × String × Rat))
    (A : List MatchEntry) (r : String × String × Rat)
    (h : GoodAcc tolSq L A) : GoodAcc tolSq (L ++ [r]) (matchStep tolSq A r) := by
  obtain ⟨hcount, hmin⟩ := h
  unfold matchStep
  by_cases hfar : r.2.2 ≤ tolSq
  case neg =>
    simp only [decide_eq_true_eq, hfar, if_false]
    refine ⟨fun pid => ?_, fun m hm => ?_⟩
    · rw [withinVals_append_far tolSq L r pid hfar]
      exact hcount pid
    · rw [withinVals_append_far tolSq L r m.photoId hfar]
      exact hmin m hm
  case pos =>
    simp only [decide_eq_true_eq, hfar, if_true]
    unfold insertMatch
    by_cases hpres : (A.map (fun m => m.photoId)).contains r.1
    case pos =>
      simp only [hpres, if_true]
      set u := fun m : MatchEntry =>
        if (m.photoId == r.1 && decide (r.2.2 < m.distanceSq)) = true
        then { m with distanceSq := r.2.2 } else m with hu
      have hupid : ∀ m : MatchEntry, (u m).photoId = m.photoId := by
        intro m
        rw [hu]
        exact insertMatch_update_photoId r.1 r.2.2 m
      have hfilter : ∀ q, (A.map u).filter (fun m => m.photoId == q) =
          (A.filter (fun m => m.photoId == q)).map u := by
        intro q
        rw [List.filter_map u A]
        have hpe : ((fun m : MatchEntry => m.photoId == q) ∘ u) =
            (fun m : MatchEntry => m.photoId == q) := by
          funext m
          simp only [Function.comp]
          rw [hupid m]
        rw [hpe]
      refine ⟨fun pid => ?_, fun m hm => ?_⟩
      · rw [hfilter pid, List.length_map]
        by_cases hq : (r.1 == pid) = true
        · have hqe : r.1 = pid := by simpa using hq
          subst hqe
          rw [withinVals_append_hit tolSq L r hfar]
          have hex : ∃ m ∈ A, m.photoId = r.1 := by
            have : r.1 ∈ A.map (fun m => m.photoId) := by
              simpa [List.elem_iff] using hpres
            obtain ⟨m, hm, he⟩ := List.mem_map.mp this
            exact ⟨m, hm, he⟩
          obtain ⟨m0, hm0, he0⟩ := hex
          have hpos : 0 < (A.filter (fun m => m.photoId == r.1)).length := by
            have hmf : m0 ∈ A.filter (fun m => m.photoId == r.1) :=
              List.mem_filter.mpr ⟨hm0, by simp [he0]⟩
            exact List.length_pos.mpr (fun hnil => by simp [hnil] at hmf)
          have h1 := hcount r.1
          by_cases hWn : withinVals tolSq L r.1 = []
          · rw [hWn, if_pos rfl] at h1
            exact absurd hpos (by omega)
          · rw [if_neg hWn] at h1
            rw [if_neg (by simp)]
            exact h1
        · have hq2 : (r.1 == pid) = false := by
            cases hb : (r.1 == pid)
            · rfl
            · exact absurd hb hq
          rw [withinVals_append_ne tolSq L r pid hq2]
          exact hcount pid
      · obtain ⟨m0, hm0, hum⟩ := List.mem_map.mp hm
        subst hum
        rw [hupid m0]
        obtain ⟨hmem0, hlb0⟩ := hmin m0 hm0
        by_cases hq : (m0.photoId == r.1) = true
        · have hqe : m0.photoId = r.1 := by simpa using hq
          rw [hqe, withinVals_append_hit tolSq L r hfar]
          rw [hu]
          dsimp only
          by_cases hlt : r.2.2 < m0.distanceSq
          · rw [if_pos (by simp [hq, hlt])]
            refine ⟨by simp, fun d hd => ?_⟩
            rcases List.mem_append.mp hd with hd | hd
            · have hle := hlb0 d (hqe ▸ hd)
              dsimp only
              linarith
            · rw [List.mem_singleton] at hd
              subst hd
              exact le_refl _
          · rw [if_neg (by simp [hlt])]
            refine ⟨List.mem_append.mpr (Or.inl (hqe ▸ hmem0)), fun d hd => ?_⟩
            rcases List.mem_append.mp hd with hd | hd
            · exact hlb0 d (hqe ▸ hd)
            · rw [List.mem_singleton] at hd
              subst hd
              linarith
        · have hq2 : (m0.photoId == r.1) = false := by
            cases hb : (m0.photoId == r.1)
            · rfl
            · exact absurd hb hq
          have hrq : (r.1 == m0.photoId) = false := by
            cases hb : (r.1 == m0.photoId)
            · rfl
            · exfalso
              have he : r.1 = m0.photoId := by simpa using hb
              rw [← he] at hq2
              simp at hq2
          rw [hu]
          dsimp only
          rw [if_neg (by simp [hq2])]
          rw [withinVals_append_ne tolSq L r m0.photoId hrq]
          exact ⟨hmem0, hlb0⟩
    case neg =>
      rw [if_neg hpres]
      have hnot : ∀ m ∈ A, (m.photoId == r.1) = false := by
        intro m hm
        cases hb : (m.photoId == r.1)
        · rfl
        · exfalso
          apply hpres
          have he : m.photoId = r.1 := by simpa using hb
          have hmm : m.photoId ∈ A.map (fun m => m.photoId) :=
            List.mem_map_of_mem (fun m => m.photoId) hm
          rw [he] at hmm
          simpa [List.elem_iff] using hmm
      have hWnil : withinVals tolSq L r.1 = [] := by
        have h1 := hcount r.1
        have hfe : A.filter (fun m => m.photoId == r.1) = [] :=
          List.filter_eq_nil_iff.mpr (fun m hm => by simp [hnot m hm])
        rw [hfe] at h1
        by_contra hne
        rw [if_neg hne] at h1
        simp at h1
      refine ⟨fun pid => ?_, fun m hm => ?_⟩
      · rw [List.filter_append]
        by_cases hq : (r.1 == pid) = true
        · have hqe : r.1 = pid := by simpa using hq
          subst hqe
          rw [withinVals_append_hit tolSq L r hfar, hWnil]
          have hfe : A.filter (fun m => m.photoId == r.1) = [] :=
            List.filter_eq_nil_iff.mpr (fun m hm => by simp [hnot m hm])
          simp [hfe]
        · have hq2 : (r.1 == pid) = false := by
            cases hb : (r.1 == pid)
            · rfl
            · exact absurd hb hq
          rw [withinVals_append_ne tolSq L r pid hq2]
          have hsf : List.filter (fun m => m.photoId == pid)
              [(⟨r.1, r.2.1, r.2.2⟩ : MatchEntry)] = [] := by
            simp only [List.filter]
            have hpp : ((⟨r.1, r.2.1, r.2.2⟩ : MatchEntry).photoId == pid) = false := hq2
            simp [hpp]
          rw [hsf, List.append_nil]
          exact hcount pid
      · rcases List.mem_append.mp hm with hm | hm
        · have hq2 : (r.1 == m.photoId) = false := by
            cases hb : (r.1 == m.photoId)
            · rfl
            · exfalso
              have he : r.1 = m.photoId := by simpa using hb
              have := hnot m hm
              rw [← he] at this
              simp at this
          rw [withinVals_append_ne tolSq L r m.photoId hq2]
          exact hmin m hm
        · rw [List.mem_singleton] at hm
          subst hm
          dsimp only
          rw [withinVals_append_hit tolSq L r hfar, hWnil]
          refine ⟨by simp, fun d hd => ?_⟩
          rw [List.nil_append, List.mem_singleton] at hd
          subst hd
          exact le_refl _

/-- The invariant holds vacuously before any row is consumed. -/
theorem goodAcc_nil (tolSq : Rat) : GoodAcc tolSq [] [] := by
  constructor
  · intro pid
    simp [withinVals]
  · intro m hm
    simp at hm

/-- Folding the remaining rows extends the invariant over them. -/
theorem goodAcc_fold (tolSq : Rat) :
    ∀ (todo done : List (String × String × Rat)) (A : List MatchEntry),
      GoodAcc tolSq done A →
      GoodAcc tolSq (done ++ todo) (todo.foldl (matchStep tolSq) A)
  | [], _, _, h => by simpa using h
  | r :: rest, done, A, h => by
      rw [List.foldl_cons]
      have h3 := goodAcc_fold tolSq rest (done ++ [r]) (matchStep tolSq A r)
        (goodAcc_step tolSq done A r h)
      simpa [List.append_assoc] using h3

/-- The matching loop satisfies the invariant over all its rows. -/
theorem goodAcc_loop (tolSq : Rat) (L : List (String × String × Rat)) :
    GoodAcc tolSq L (L.foldl (matchStep tolSq) []) := by
  simpa using goodAcc_fold tolSq L [] [] (goodAcc_nil tolSq)

/-- Claim C7: with a cold cache, `find_matches` returns exactly one match
entry per asset having at least one embedding row with Euclidean distance
within the (inclusive) tolerance — the squared comparison
`distSq <= tolerance^2` is equivalent for the nonnegative distance — and
that entry's (squared) distance is the minimum over the asset's
within-tolerance rows. -/
theorem C7_find_matches_one_min_entry_per_matching_asset (db : DBState) (c : Cache)
    (eventId : String) (search : List Rat) (tolerance : Rat) (useCache : Bool)
    (pid : String) (hc : cacheGet c eventId = none) :
    (((find_matches db c eventId search tolerance useCache).1.matchList.filter
        (fun m => m.photoId == pid)).length =
      if ((db.faces.filter (fun r => r.eventId == eventId)).filter
          (fun r => r.photoId == pid &&
            decide (distSq search r.encoding ≤ tolerance * tolerance))) = []
      then 0 else 1) ∧
    (∀ m ∈ (find_matches db c eventId search tolerance useCache).1.matchList,
      m.photoId = pid →
        m.distanceSq ∈ (((db.faces.filter (fun r => r.eventId == eventId)).filter
            (fun r => r.photoId == pid &&
              decide (distSq search r.encoding ≤ tolerance * tolerance))).map
            (fun r => distSq search r.encoding)) ∧
        ∀ d ∈ (((db.faces.filter (fun r => r.eventId == eventId)).filter
            (fun r => r.photoId == pid &&
              decide (distSq search r.encoding ≤ tolerance * tolerance))).map
            (fun r => distSq search r.encoding)), m.distanceSq ≤ d) := by
  by_cases hrows : db.faces.filter (fun r => r.eventId == eventId) = []
  · have hres : (find_matches db c eventId search tolerance useCache).1.matchList = [] := by
      unfold find_matches obtain_cache_entry load_encodings_from_db
      cases useCache <;> simp [hrows, hc]
    rw [hres, hrows]
    exact ⟨by simp, by simp⟩
  · have hob : (obtain_cache_entry db c eventId useCache).1 =
        some ⟨(db.faces.filter (fun r => r.eventId == eventId)).map (fun r => r.encoding),
          (db.faces.filter (fun r => r.eventId == eventId)).map (fun r => r.photoId),
          (db.faces.filter (fun r => r.eventId == eventId)).map (fun r => r.photoName)⟩ := by
      unfold obtain_cache_entry load_encodings_from_db
      cases useCache <;> simp [hc, hrows, cacheGet_set_self]
    have hfm : (find_matches db c eventId search tolerance useCache).1.matchList =
        List.insertionSort matchLE
          (((db.faces.filter (fun r => r.eventId == eventId)).map
              (fun r => (r.photoId, r.photoName, distSq search r.encoding))).foldl
            (matchStep (tolerance * tolerance)) []) := by
      unfold find_matches
      simp only [hob]
      rw [scoredRows_of_rows]
    have hWv : ∀ q, withinVals (tolerance * tolerance)
        ((db.faces.filter (fun r => r.eventId == eventId)).map
          (fun r => (r.photoId, r.photoName, distSq search r.encoding))) q =
        (((db.faces.filter (fun r => r.eventId == eventId)).filter
            (fun r => r.photoId == q &&
              decide (distSq search r.encoding ≤ tolerance * tolerance))).map
          (fun r => distSq search r.encoding)) := by
      intro q
      unfold withinVals
      rw [List.filter_map, List.map_map]
      rfl
    obtain ⟨hcnt, hmn⟩ := goodAcc_loop (tolerance * tolerance)
      ((db.faces.filter (fun r => r.eventId == eventId)).map
        (fun r => (r.photoId, r.photoName, distSq search r.encoding)))
    have hperm := List.perm_insertionSort matchLE
      (((db.faces.filter (fun r => r.eventId == eventId)).map
          (fun r => (r.photoId, r.photoName, distSq search r.encoding))).foldl
        (matchStep (tolerance * tolerance)) [])
    constructor
    · rw [hfm]
      rw [List.Perm.length_eq (hperm.filter (fun m => m.photoId == pid))]
      rw [hcnt pid, hWv pid]
      by_cases hfe : ((db.faces.filter (fun r => r.eventId == eventId)).filter
          (fun r => r.photoId == pid &&
            decide (distSq search r.encoding ≤ tolerance * tolerance))) = []
      · simp [hfe]
      · rw [if_neg (by simpa using hfe), if_neg hfe]
    · intro m hm hpid2
      rw [hfm] at hm
      have hmem : m ∈ ((db.faces.filter (fun r => r.eventId == eventId)).map
          (fun r => (r.photoId, r.photoName, distSq search r.encoding))).foldl
          (matchStep (tolerance * tolerance)) [] := hperm.mem_iff.mp hm
      have h2 := hmn m hmem
      rw [hWv m.photoId, hpid2] at h2
      exact h2

/-- Witness for C7_find_matches_one_min_entry_per_matching_asset on the
concrete corpus. -/
theorem C7_find_matches_witness :
    (((find_matches matchDemoDB [] "e1" [0] 2 true).1.matchList.filter
        (fun m => m.photoId == "pA")).length =
      if ((matchDemoDB.faces.filter (fun r => r.eventId == "e1")).filter
          (fun r => r.photoId == "pA" &&
            decide (distSq [0] r.encoding ≤ 2 * 2))) = []
      then 0 else 1) ∧
    (∀ m ∈ (find_matches matchDemoDB [] "e1" [0] 2 true).1.matchList,
      m.photoId = "pA" →
        m.distanceSq ∈ (((matchDemoDB.faces.filter (fun r => r.eventId == "e1")).filter
            (fun r => r.photoId == "pA" &&
              decide (distSq [0] r.encoding ≤ 2 * 2))).map
            (fun r => distSq [0] r.encoding)) ∧
        ∀ d ∈ (((matchDemoDB.faces.filter (fun r => r.eventId == "e1")).filter
            (fun r => r.photoId == "pA" &&
              decide (distSq [0] r.encoding ≤ 2 * 2))).map
            (fun r => distSq [0] r.encoding)), m.distanceSq ≤ d) :=
  C7_find_matches_one_min_entry_per_matching_asset matchDemoDB [] "e1" [0] 2 true "pA" rfl

end FaceEvent
